import Mathlib

/-!
Verification development for the method-invocation lowering subsystem of
`compiler/dex/quick/gen_invoke.cc` (ART quick backend).

The code-generation routines of that file are shallowly embedded here.
An emitted native instruction (or codegen event such as a register-pool
reset) is a constructor of `Insn`; every mid-level utility that the file
calls out to (`LoadConstant`, `LoadWordDisp`, `LoadValueDirectFixed`,
`StoreBaseDisp`, ...) is modelled as emitting one such event, while the
control flow — the state machines `NextSDCallInsn` / `NextVCallInsn` /
`NextInterfaceCallInsn` / `NextInvokeInsnSP`, the marshalling loops of
`FlushIns`, `LoadArgRegs`, `GenDalvikArgsNoRange`, `GenDalvikArgsRange`,
and the drivers `GenInvoke` / `GenInvokeNoInline` — is translated
faithfully from the C++ source.  External byte offsets (object layout,
thread entrypoints, `SRegOffset`) are collected in an `Env` parameter.
Machine registers are plain integers; the calling-convention roles
`TargetReg(kArg0)` ... are fixed distinct integers with the consecutive
layout `kArg1+1 = kArg2`, `kArg2+1 = kArg3` that the source relies on.
-/

/-- The three instruction sets this generator targets (`kThumb2`, `kMips`, `kX86`). -/
inductive InstructionSet
  | thumb2
  | mips
  | x86
deriving DecidableEq, Repr

/-- Invocation kinds (`InvokeType`). -/
inductive InvokeType
  | static
  | direct
  | super
  | virtual
  | interface
deriving DecidableEq, Repr

/-- Location tags of a `RegLocation` / `PromotionMap` entry
(`kLocInvalid`, `kLocDalvikFrame`, `kLocPhysReg`). -/
inductive Loc
  | invalid
  | dalvikFrame
  | physReg
deriving DecidableEq, Repr

/-- One operand-location record (`RegLocation`), one per Dalvik word. -/
structure RegLocation where
  location : Loc
  wide : Bool
  fp : Bool
  highWord : Bool
  isConst : Bool
  home : Bool
  regLow : Int
  regHigh : Int
  sRegLow : Int
deriving DecidableEq, Repr

instance : Inhabited RegLocation :=
  ⟨⟨Loc.invalid, false, false, false, false, false, 0, 0, 0⟩⟩

/-- One promotion-map entry (`PromotionMap`): the register allocator's decision
for one virtual register. -/
structure PromotionMap where
  coreLocation : Loc
  coreReg : Int
  fpLocation : Loc
  fpReg : Int
deriving DecidableEq, Repr

instance : Inhabited PromotionMap := ⟨⟨Loc.invalid, 0, Loc.invalid, 0⟩⟩

/-- `INVALID_REG` sentinel of `GetArgMappingToPhysicalReg`. -/
def INVALID_REG : Int := -1

/-- `TargetReg(kArg0)`: first calling-convention argument register. -/
def regArg0 : Int := 0

/-- `TargetReg(kArg1)`. -/
def regArg1 : Int := 1

/-- `TargetReg(kArg2)`. -/
def regArg2 : Int := 2

/-- `TargetReg(kArg3)`: the last argument register. -/
def regArg3 : Int := 3

/-- `TargetReg(kInvokeTgt)`: scratch register holding the callee address. -/
def regInvokeTgt : Int := 90

/-- `TargetReg(kSelf)`: thread pointer. -/
def regSelf : Int := 91

/-- `TargetReg(kSp)`: stack pointer. -/
def regSp : Int := 92

/-- `TargetReg(kHiddenArg)`: hidden interface-dispatch argument. -/
def regHiddenArg : Int := 93

/-- `TargetReg(kHiddenFpArg)`: floating shadow of the hidden argument (x86). -/
def regHiddenFpArg : Int := 94

/-- `static_cast<unsigned int>(-1)`, the "known only to the linker" sentinel
for `direct_code` / `direct_method` (32-bit pointers). -/
def UMAX : Nat := 4294967295

/-- `ClassLinker::kImtSize`: size of the hashed interface-method table. -/
def kImtSize : Nat := 64

/-- Thread-local entrypoint / runtime-helper identities (`ThreadOffset` users). -/
inductive ThreadHelper
  | invokeStaticTrampolineWithAccessCheck
  | invokeDirectTrampolineWithAccessCheck
  | invokeSuperTrampolineWithAccessCheck
  | invokeVirtualTrampolineWithAccessCheck
  | invokeInterfaceTrampolineWithAccessCheck
  | memcpyHelper
  | indexOfHelper
  | stringCompareToHelper
deriving DecidableEq, Repr

/-- Target of an emitted call instruction (`kOpBlx` flavours). -/
inductive CallTarget
  | reg (r : Int)
  | helperReg (t : ThreadHelper)
  | threadMem (t : ThreadHelper)
  | mem (base : Int) (disp : Int)
  | linkerFixup
deriving DecidableEq, Repr

/-- x86 SSE move kinds used by the range-path bulk copy
(`kMovA128FP`, `kMovLo128FP`, `kMovHi128FP`, `kMovU128FP`). -/
inductive MovKind
  | a128
  | lo128
  | hi128
  | u128
deriving DecidableEq, Repr

/-- Branch conditions appearing in the embedded routines. -/
inductive CondKind
  | eq
  | gt
  | uge
deriving DecidableEq, Repr

/-- One emitted instruction or codegen event.  The `safepoint` flag of
`callInsn` records whether `MarkSafepointPC` was applied to the call. -/
inductive Insn
  | loadConstant (r : Int) (v : Int)
  | loadCodeAddress (r : Int)
  | loadMethodAddress (r : Int)
  | loadCurrMethodDirect (r : Int)
  | loadWordDisp (base : Int) (disp : Int) (dest : Int)
  | loadValueDirectFixed (rl : RegLocation) (r : Int)
  | loadValueDirectWideFixed (rl : RegLocation) (lo : Int) (hi : Int)
  | genNullCheck (r : Int)
  | markPossibleNullPointerEx
  | opRegCopy (dest : Int) (src : Int)
  | storeWordDisp (base : Int) (disp : Int) (src : Int)
  | storeBaseDisp (base : Int) (disp : Int) (src : Int)
  | storeBaseDispWide (base : Int) (disp : Int) (lo : Int) (hi : Int)
  | storeValue (dest : RegLocation) (src : RegLocation)
  | storeValueWide (dest : RegLocation) (src : RegLocation)
  | markLive (r : Int) (sreg : Int)
  | resetRegPool
  | resetDefTracking
  | pseudoIntrinsicRetryLabel
  | pseudoTargetLabel
  | callInsn (target : CallTarget) (safepoint : Bool)
  | opUncondBranch
  | opCmpImmBranch (c : CondKind) (r : Int) (v : Int)
  | addLaunchpad (hasResume : Bool)
  | setIgnoreNullCheckFlag
  | clobberCallerSave
  | lockCallTemps
  | flushAllRegs
  | loadHelperInsn (t : ThreadHelper)
  | opAddRegRegImm (dest : Int) (src : Int) (imm : Int)
  | opVldm (r : Int) (count : Nat)
  | opVstm (r : Int) (count : Nat)
  | movRegMem (k : MovKind) (srcOff : Int)
  | movMemReg (k : MovKind) (destOff : Int)
  | allocTempDouble
  | freeTempInsn
deriving DecidableEq, Repr

/-- External layout facts consumed by the generator: object/metadata byte
offsets, thread entrypoint offsets, the virtual-register home-slot map
`SRegOffset`, and the return-value locations `GetReturn`/`GetReturnWide`. -/
structure Env where
  sro : Int → Int
  dexCacheResolvedMethodsOff : Int
  entryPointOff : Int
  classOff : Int
  vtableOff : Int
  imtableOff : Int
  arrayDataOff : Int
  threadOff : ThreadHelper → Int
  getReturn : Bool → RegLocation
  getReturnWide : Bool → RegLocation

/-- A concrete environment with all external offsets zero; used to
instantiate theorems on explicit inputs. -/
def env0 : Env where
  sro := fun _ => 0
  dexCacheResolvedMethodsOff := 0
  entryPointOff := 0
  classOff := 0
  vtableOff := 0
  imtableOff := 0
  arrayDataOff := 0
  threadOff := fun _ => 0
  getReturn := fun _ => default
  getReturnWide := fun _ => default

/-- `mirror::Array::DataOffset(...) + idx * 4`: slot `idx` of a pointer array
(dex-cache resolved-methods table or a vtable). -/
def methodSlotDisp (env : Env) (idx : Nat) : Int :=
  env.arrayDataOff + (idx : Int) * 4

/-- `NextSDCallInsn` (static & direct invoke sequence): emits the next
resolution step's instructions and returns the next state, `-1` terminal. -/
def NextSDCallInsn (env : Env) (isa : InstructionSet) (state : Int)
    (tmIdx : Nat) (directCode : Nat) (directMethod : Nat) : List Insn × Int :=
  if directCode ≠ 0 ∧ directMethod ≠ 0 then
    if state = 0 then
      ((if directCode ≠ UMAX then
          if isa ≠ InstructionSet.x86 then [Insn.loadConstant regInvokeTgt (directCode : Int)]
          else []
        else
          if isa ≠ InstructionSet.x86 then [Insn.loadCodeAddress regInvokeTgt]
          else []) ++
        (if directMethod ≠ UMAX then [Insn.loadConstant regArg0 (directMethod : Int)]
         else [Insn.loadMethodAddress regArg0]),
       state + 1)
    else ([], -1)
  else
    if state = 0 then
      ([Insn.loadCurrMethodDirect regArg0], state + 1)
    else if state = 1 then
      ([Insn.loadWordDisp regArg0 env.dexCacheResolvedMethodsOff regArg0] ++
        (if directCode ≠ 0 then
          if directCode ≠ UMAX then [Insn.loadConstant regInvokeTgt (directCode : Int)]
          else if isa ≠ InstructionSet.x86 then [Insn.loadCodeAddress regInvokeTgt]
          else []
         else []),
       state + 1)
    else if state = 2 then
      ([Insn.loadWordDisp regArg0 (methodSlotDisp env tmIdx) regArg0], state + 1)
    else if state = 3 then
      if isa ≠ InstructionSet.x86 then
        ((if directCode = 0 then
            [Insn.loadWordDisp regArg0 env.entryPointOff regInvokeTgt]
          else []),
         state + 1)
      else ([], -1)
    else ([], -1)

/-- `NextVCallInsn` (virtual invoke fast-path sequence). -/
def NextVCallInsn (env : Env) (isa : InstructionSet) (state : Int)
    (args0 : RegLocation) (methodIdx : Nat) : List Insn × Int :=
  if state = 0 then
    ([Insn.loadValueDirectFixed args0 regArg1], state + 1)
  else if state = 1 then
    ([Insn.genNullCheck regArg1,
      Insn.loadWordDisp regArg1 env.classOff regInvokeTgt,
      Insn.markPossibleNullPointerEx],
     state + 1)
  else if state = 2 then
    ([Insn.loadWordDisp regInvokeTgt env.vtableOff regInvokeTgt], state + 1)
  else if state = 3 then
    ([Insn.loadWordDisp regInvokeTgt (methodSlotDisp env methodIdx) regArg0], state + 1)
  else if state = 4 then
    if isa ≠ InstructionSet.x86 then
      ([Insn.loadWordDisp regArg0 env.entryPointOff regInvokeTgt], state + 1)
    else ([], -1)
  else ([], -1)

/-- `NextInterfaceCallInsn` (interface invoke fast-path sequence, IMT lookup). -/
def NextInterfaceCallInsn (env : Env) (isa : InstructionSet) (state : Int)
    (args0 : RegLocation) (tmIdx : Nat) (methodIdx : Nat) : List Insn × Int :=
  if state = 0 then
    ([Insn.loadConstant regHiddenArg (tmIdx : Int)] ++
      (if isa = InstructionSet.x86 then [Insn.opRegCopy regHiddenFpArg regHiddenArg]
       else []),
     state + 1)
  else if state = 1 then
    ([Insn.loadValueDirectFixed args0 regArg1], state + 1)
  else if state = 2 then
    ([Insn.genNullCheck regArg1,
      Insn.loadWordDisp regArg1 env.classOff regInvokeTgt,
      Insn.markPossibleNullPointerEx],
     state + 1)
  else if state = 3 then
    ([Insn.loadWordDisp regInvokeTgt env.imtableOff regInvokeTgt], state + 1)
  else if state = 4 then
    ([Insn.loadWordDisp regInvokeTgt (methodSlotDisp env (methodIdx % kImtSize)) regArg0],
     state + 1)
  else if state = 5 then
    if isa ≠ InstructionSet.x86 then
      ([Insn.loadWordDisp regArg0 env.entryPointOff regInvokeTgt], state + 1)
    else ([], -1)
  else ([], -1)

/-- `NextInvokeInsnSP`: single-step slow path through a runtime trampoline,
shared by all unresolved invocation kinds. -/
def NextInvokeInsnSP (env : Env) (isa : InstructionSet) (t : ThreadHelper)
    (state : Int) (tmIdx : Nat) : List Insn × Int :=
  if state = 0 then
    ((if isa ≠ InstructionSet.x86 then
        [Insn.loadWordDisp regSelf (env.threadOff t) regInvokeTgt]
      else []) ++
      [Insn.loadConstant regArg0 (tmIdx : Int)],
     1)
  else ([], -1)

/-- `NextStaticCallInsnSP`. -/
def NextStaticCallInsnSP (env : Env) (isa : InstructionSet) (state : Int)
    (tmIdx : Nat) : List Insn × Int :=
  NextInvokeInsnSP env isa ThreadHelper.invokeStaticTrampolineWithAccessCheck state tmIdx

/-- `NextDirectCallInsnSP`. -/
def NextDirectCallInsnSP (env : Env) (isa : InstructionSet) (state : Int)
    (tmIdx : Nat) : List Insn × Int :=
  NextInvokeInsnSP env isa ThreadHelper.invokeDirectTrampolineWithAccessCheck state tmIdx

/-- `NextSuperCallInsnSP`. -/
def NextSuperCallInsnSP (env : Env) (isa : InstructionSet) (state : Int)
    (tmIdx : Nat) : List Insn × Int :=
  NextInvokeInsnSP env isa ThreadHelper.invokeSuperTrampolineWithAccessCheck state tmIdx

/-- `NextVCallInsnSP`. -/
def NextVCallInsnSP (env : Env) (isa : InstructionSet) (state : Int)
    (tmIdx : Nat) : List Insn × Int :=
  NextInvokeInsnSP env isa ThreadHelper.invokeVirtualTrampolineWithAccessCheck state tmIdx

/-- `NextInterfaceCallInsnWithAccessCheck`. -/
def NextInterfaceCallInsnWithAccessCheck (env : Env) (isa : InstructionSet)
    (state : Int) (tmIdx : Nat) : List Insn × Int :=
  NextInvokeInsnSP env isa ThreadHelper.invokeInterfaceTrampolineWithAccessCheck state tmIdx

example : (NextSDCallInsn env0 InstructionSet.x86 3 0 0 0).2 = -1 := by decide

example : (NextSDCallInsn env0 InstructionSet.thumb2 3 0 0 0).2 = 4 := by decide

example : (NextSDCallInsn env0 InstructionSet.thumb2 0 0 5 7).1 =
    [Insn.loadConstant regInvokeTgt 5, Insn.loadConstant regArg0 7] := by decide

example : (NextVCallInsnSP env0 InstructionSet.x86 0 9).1 =
    [Insn.loadConstant regArg0 9] := by decide

/-- One iteration of the `FlushIns` argument loop, for incoming argument word
`i` with location record `tloc` (`ArgLocs[i]`).  `pmap` is `promotion_map_`,
`argMap` is `GetArgMappingToPhysicalReg`, `startVreg` is
`num_dalvik_registers - num_ins`. -/
def FlushInsArg (env : Env) (isa : InstructionSet) (pmap : Int → PromotionMap)
    (argMap : Nat → Int) (startVreg : Int) (i : Nat) (tloc : RegLocation) :
    List Insn :=
  let vmap := pmap (startVreg + (i : Int))
  let reg := argMap i
  if reg ≠ INVALID_REG then
    let copyAndFlush : List Insn × Bool :=
      if vmap.coreLocation = Loc.physReg ∧ tloc.fp = false then
        ([Insn.opRegCopy vmap.coreReg reg], false)
      else if vmap.fpLocation = Loc.physReg ∧ tloc.fp = true then
        ([Insn.opRegCopy vmap.fpReg reg], false)
      else ([], true)
    let needFlush : Bool :=
      if tloc.wide = true then
        let p := pmap (startVreg + (i : Int) + (if tloc.highWord = true then -1 else 1))
        let nf := copyAndFlush.2 || decide (p.coreLocation ≠ vmap.coreLocation) ||
          decide (p.fpLocation ≠ vmap.fpLocation)
        if isa = InstructionSet.thumb2 ∧ tloc.fp = true ∧ nf = false then
          let lowregIndex := startVreg + (i : Int) + (if tloc.highWord = true then -1 else 0)
          if (pmap lowregIndex).fpReg % 2 ≠ 0 ∨
              (pmap (lowregIndex + 1)).fpReg ≠ (pmap lowregIndex).fpReg + 1 then
            true
          else nf
        else nf
      else copyAndFlush.2
    copyAndFlush.1 ++
      (if needFlush = true then
        [Insn.storeBaseDisp regSp (env.sro (startVreg + (i : Int))) reg]
       else [])
  else
    (if vmap.coreLocation = Loc.physReg then
      [Insn.loadWordDisp regSp (env.sro (startVreg + (i : Int))) vmap.coreReg]
     else []) ++
    (if vmap.fpLocation = Loc.physReg then
      [Insn.loadWordDisp regSp (env.sro (startVreg + (i : Int))) vmap.fpReg]
     else [])

/-- The `FlushIns` argument loop over `ArgLocs`, starting at argument index `i`. -/
def FlushInsLoop (env : Env) (isa : InstructionSet) (pmap : Int → PromotionMap)
    (argMap : Nat → Int) (startVreg : Int) :
    Nat → List RegLocation → List Insn
  | _, [] => []
  | i, t :: rest =>
    FlushInsArg env isa pmap argMap startVreg i t ++
      FlushInsLoop env isa pmap argMap startVreg (i + 1) rest

/-- `Mir2Lir::FlushIns`: re-home the incoming `Method*` word, then run the
per-argument redistribution loop. -/
def FlushIns (env : Env) (isa : InstructionSet) (pmap : Int → PromotionMap)
    (argMap : Nat → Int) (startVreg : Int) (rlMethod : RegLocation)
    (argLocs : List RegLocation) : List Insn :=
  let rlSrc : RegLocation :=
    { rlMethod with location := Loc.physReg, regLow := regArg0, home := false }
  [Insn.markLive regArg0 rlSrc.sRegLow, Insn.storeValue rlMethod rlSrc] ++
    (if rlMethod.location = Loc.physReg then [Insn.storeWordDisp regSp 0 regArg0]
     else []) ++
    FlushInsLoop env isa pmap argMap startVreg 0 argLocs

/-- `Mir2Lir::LoadArgRegs` inner loop: fill `next_reg` (walking
`kArg1`..`kArg3`) from the argument list, driving one dispatch-resolution
step (`next`) per register filled.  `updRaw` is `UpdateRawLoc`. -/
def LoadArgRegsAux (next : Int → List Insn × Int)
    (updRaw : RegLocation → RegLocation) (nextReg : Int)
    (args : List RegLocation) (cs : Int) : List Insn × Int :=
  match args with
  | [] => ([], cs)
  | a :: rest =>
    if nextReg > regArg3 then ([], cs)
    else
      let rl := updRaw a
      if rl.wide = true ∧ nextReg ≤ regArg2 then
        let r := next cs
        let rec1 := LoadArgRegsAux next updRaw (nextReg + 2) rest.tail r.2
        (Insn.loadValueDirectWideFixed rl nextReg (nextReg + 1) :: (r.1 ++ rec1.1),
         rec1.2)
      else
        let rl2 := if rl.wide = true then { rl with wide := false, isConst := false }
          else rl
        let r := next cs
        let rec1 := LoadArgRegsAux next updRaw (nextReg + 1) rest r.2
        (Insn.loadValueDirectFixed rl2 nextReg :: (r.1 ++ rec1.1), rec1.2)
termination_by args.length
decreasing_by
· simp [List.length_tail]; omega
· simp

/-- Per-invocation call-site description (`CallInfo`): argument
operand-locations, the range/compact flag, and the result location. -/
structure CallInfo where
  numArgWords : Nat
  args : List RegLocation
  isRange : Bool
  result : RegLocation
deriving DecidableEq, Repr

/-- `Mir2Lir::LoadArgRegs`: skip the receiver word when dispatch resolution
already consumed it, then run the register-filling loop. -/
def LoadArgRegs (next : Int → List Insn × Int)
    (updRaw : RegLocation → RegLocation) (info : CallInfo) (cs : Int)
    (skipThis : Bool) : List Insn × Int :=
  if skipThis = true then
    LoadArgRegsAux next updRaw (regArg1 + 1) (info.args.take info.numArgWords).tail cs
  else
    LoadArgRegsAux next updRaw regArg1 (info.args.take info.numArgWords) cs

/-- Stack-copy loop of `GenDalvikArgsNoRange` for argument words 3.. :
load each remaining value and store it to its outgoing-argument slot,
interleaving dispatch steps. -/
def genArgsNoRangeLoop (env : Env) (updRaw : RegLocation → RegLocation)
    (next : Int → List Insn × Int) (args : List RegLocation) (num : Nat)
    (nextUse : Nat) (cs : Int) : List Insn × Int :=
  if h : nextUse < num then
    let rlArg := updRaw (args.getD nextUse default)
    if rlArg.location = Loc.physReg then
      if rlArg.wide = true then
        let r2 := next cs
        let rec1 := genArgsNoRangeLoop env updRaw next args num (nextUse + 2) r2.2
        (Insn.storeBaseDispWide regSp (((nextUse : Int) + 1) * 4) rlArg.regLow
            rlArg.regHigh :: (r2.1 ++ rec1.1),
         rec1.2)
      else
        let r2 := next cs
        let rec1 := genArgsNoRangeLoop env updRaw next args num (nextUse + 1) r2.2
        (Insn.storeWordDisp regSp (((nextUse : Int) + 1) * 4) rlArg.regLow ::
            (r2.1 ++ rec1.1),
         rec1.2)
    else
      if rlArg.wide = true then
        let r1 := next cs
        let r2 := next r1.2
        let rec1 := genArgsNoRangeLoop env updRaw next args num (nextUse + 2) r2.2
        (Insn.loadValueDirectWideFixed rlArg regArg2 regArg3 :: (r1.1 ++
            (Insn.storeBaseDispWide regSp (((nextUse : Int) + 1) * 4) regArg2 regArg3 ::
              (r2.1 ++ rec1.1))),
         rec1.2)
      else
        let r1 := next cs
        let r2 := next r1.2
        let rec1 := genArgsNoRangeLoop env updRaw next args num (nextUse + 1) r2.2
        (Insn.loadValueDirectFixed rlArg regArg2 :: (r1.1 ++
            (Insn.storeWordDisp regSp (((nextUse : Int) + 1) * 4) regArg2 ::
              (r2.1 ++ rec1.1))),
         rec1.2)
  else ([], cs)
termination_by num - nextUse
decreasing_by
· omega
· omega
· omega
· omega

/-- `Mir2Lir::GenDalvikArgsNoRange` (compact path, ≤ 5 argument words):
handle the wide value straddling arg3/arg4 specially, copy words 3.. to the
outgoing area, then fill the argument registers; `pcr` records whether the
caller passed a `pcrLabel` slot (direct fast path).  `updWide` is
`UpdateLocWide`. -/
def GenDalvikArgsNoRange (env : Env) (updRaw updWide : RegLocation → RegLocation)
    (next : Int → List Insn × Int) (info : CallInfo) (cs : Int)
    (pcr : Bool) (skipThis : Bool) : List Insn × Int :=
  if info.numArgWords = 0 then ([], cs)
  else
    let r0 := next cs
    let special : List Insn × Int × Nat :=
      if 3 < info.numArgWords then
        let u0 := info.args.getD 0 default
        let u1 := info.args.getD 1 default
        let u2 := info.args.getD 2 default
        if ((u0.wide = false ∧ u1.wide = false) ∨ u0.wide = true) ∧ u2.wide = true then
          let rlArg := updWide u2
          let ldStep : List Insn × Int × Int :=
            if rlArg.location = Loc.physReg then ([], rlArg.regHigh, r0.2)
            else
              let rn := next r0.2
              ([Insn.loadWordDisp regSp (env.sro rlArg.sRegLow + 4) regArg3] ++ rn.1,
               regArg3, rn.2)
          let rs := next ldStep.2.2
          (ldStep.1 ++ [Insn.storeBaseDisp regSp ((3 + 1) * 4) ldStep.2.1] ++ rs.1,
           rs.2, 4)
        else ([], r0.2, 3)
      else ([], r0.2, 3)
    let loopRes := genArgsNoRangeLoop env updRaw next info.args info.numArgWords
      special.2.2 special.2.1
    let lar := LoadArgRegs next updRaw info loopRes.2 skipThis
    (r0.1 ++ special.1 ++ loopRes.1 ++ lar.1 ++
      (if pcr = true then [Insn.genNullCheck regArg1] else []),
     lar.2)

/-- `Mir2Lir::CallHelperSetup`: load the helper address into a register,
except on x86 where the call goes through thread memory. -/
def CallHelperSetup (isa : InstructionSet) (t : ThreadHelper) : List Insn :=
  if isa = InstructionSet.x86 then [] else [Insn.loadHelperInsn t]

/-- `Mir2Lir::CallHelper`: emit the helper call, safepoint-marked iff
`safepointPc`. -/
def CallHelper (isa : InstructionSet) (t : ThreadHelper) (safepointPc : Bool) :
    List Insn :=
  if isa = InstructionSet.x86 then
    [Insn.callInsn (CallTarget.threadMem t) safepointPc]
  else
    [Insn.callInsn (CallTarget.helperReg t) safepointPc, Insn.freeTempInsn]

/-- `Mir2Lir::CallRuntimeHelperRegRegImm`. -/
def CallRuntimeHelperRegRegImm (isa : InstructionSet) (t : ThreadHelper)
    (arg0 arg1 : Int) (arg2 : Int) (safepointPc : Bool) : List Insn :=
  CallHelperSetup isa t ++
    [Insn.opRegCopy regArg0 arg0, Insn.opRegCopy regArg1 arg1,
     Insn.loadConstant regArg2 arg2, Insn.clobberCallerSave] ++
    CallHelper isa t safepointPc

/-- x86 bulk copy of `GenDalvikArgsRange`: move `regsLeft` stack-resident
argument words from the caller frame (`srcOff`) to the outgoing area
(`destOff`), preferring 128-bit SSE transfers; a 128-bit transfer is forced
when exactly 4 words remain. -/
def x86ArgsCopyLoop (srcOff destOff : Int) (regsLeft : Nat) : List Insn :=
  if h0 : regsLeft = 0 then []
  else if h1 : regsLeft = 4 ∨ (4 < regsLeft ∧ (srcOff % 16 = 0 ∨ destOff % 16 = 0)) then
    (Insn.allocTempDouble ::
      ((if srcOff % 16 = 0 then [Insn.movRegMem MovKind.a128 srcOff]
        else if srcOff % 8 = 0 then
          [Insn.movRegMem MovKind.lo128 srcOff, Insn.movRegMem MovKind.hi128 (srcOff + 8)]
        else [Insn.movRegMem MovKind.u128 srcOff]) ++
       (if destOff % 16 = 0 then [Insn.movMemReg MovKind.a128 destOff]
        else if destOff % 8 = 0 then
          [Insn.movMemReg MovKind.lo128 destOff, Insn.movMemReg MovKind.hi128 (destOff + 8)]
        else [Insn.movMemReg MovKind.u128 destOff]) ++
       [Insn.freeTempInsn])) ++
      x86ArgsCopyLoop (srcOff + 16) (destOff + 16) (regsLeft - 4)
  else
    Insn.loadWordDisp regSp srcOff regArg3 :: Insn.storeWordDisp regSp destOff regArg3 ::
      x86ArgsCopyLoop (srcOff + 4) (destOff + 4) (regsLeft - 1)
termination_by regsLeft
decreasing_by
· omega
· omega

/-- Flush loop of `GenDalvikArgsRange`: spill every argument value that the
allocator kept in a physical register but that will be passed on the stack
(word index ≥ 3, or ≥ 2 for the start of a wide pair).  `updLoc` is
`UpdateLoc`. -/
def genArgsRangeFlushLoop (env : Env) (updWide updLoc : RegLocation → RegLocation)
    (args : List RegLocation) (num : Nat) (nextArg : Nat) : List Insn :=
  if h : nextArg < num then
    let loc := args.getD nextArg default
    if loc.wide = true then
      let l := updWide loc
      (if 2 ≤ nextArg ∧ l.location = Loc.physReg then
        [Insn.storeBaseDispWide regSp (env.sro l.sRegLow) l.regLow l.regHigh]
       else []) ++
        genArgsRangeFlushLoop env updWide updLoc args num (nextArg + 2)
    else
      let l := updLoc loc
      (if 3 ≤ nextArg ∧ l.location = Loc.physReg then
        [Insn.storeBaseDisp regSp (env.sro l.sRegLow) l.regLow]
       else []) ++
        genArgsRangeFlushLoop env updWide updLoc args num (nextArg + 1)
  else []
termination_by num - nextArg
decreasing_by
· omega
· omega

/-- `Mir2Lir::GenDalvikArgsRange`: delegate to the compact path for ≤ 5
argument words; otherwise flush promoted stack-passed values, bulk-copy words
3.. (vldm/vstm on Thumb2, SSE loop on x86, `memcpy` helper otherwise), then
fill the argument registers. -/
def GenDalvikArgsRange (env : Env) (updRaw updWide updLoc : RegLocation → RegLocation)
    (next : Int → List Insn × Int) (isa : InstructionSet) (info : CallInfo)
    (cs : Int) (pcr : Bool) (skipThis : Bool) : List Insn × Int :=
  if info.numArgWords ≤ 5 then
    GenDalvikArgsNoRange env updRaw updWide next info cs pcr skipThis
  else
    let flushE := genArgsRangeFlushLoop env updWide updLoc info.args info.numArgWords 0
    let outsOffset : Int := 4 + 3 * 4
    let startOffset := env.sro ((info.args.getD 3 default).sRegLow)
    let regsLeft := info.numArgWords - 3
    let copy : List Insn × Int :=
      if isa = InstructionSet.thumb2 ∧ regsLeft ≤ 16 then
        let r1 := next cs
        let r2 := next r1.2
        let r3 := next r2.2
        let r4 := next r3.2
        (r1.1 ++
          [Insn.opAddRegRegImm regArg3 regSp startOffset, Insn.opVldm regArg3 regsLeft] ++
          r2.1 ++ [Insn.opAddRegRegImm regArg3 regSp (4 + 3 * 4)] ++ r3.1 ++
          [Insn.opVstm regArg3 regsLeft] ++ r4.1,
         r4.2)
      else if isa = InstructionSet.x86 then
        (x86ArgsCopyLoop startOffset outsOffset regsLeft, cs)
      else
        ([Insn.opAddRegRegImm regArg0 regSp outsOffset,
          Insn.opAddRegRegImm regArg1 regSp startOffset] ++
          CallRuntimeHelperRegRegImm isa ThreadHelper.memcpyHelper regArg0 regArg1
            (((info.numArgWords : Int) - 3) * 4) false,
         cs)
    let lar := LoadArgRegs next updRaw info copy.2 skipThis
    let r5 := next lar.2
    (flushE ++ copy.1 ++ lar.1 ++ r5.1 ++
      (if pcr = true then [Insn.genNullCheck regArg1] else []),
     r5.2)

/-- Resolved lowering facts for one call site (`MirMethodLoweringInfo`):
target method index, vtable/IMT index, linker-known code and method
addresses, sharpened invocation kind, and the fast-path flag. -/
structure MethodLoweringInfo where
  tmIdx : Nat
  vtIdx : Nat
  directCode : Nat
  directMethod : Nat
  sharpType : InvokeType
  fastPath : Bool
deriving DecidableEq, Repr

/-- Which `NextCallInsn` routine `GenInvokeNoInline` selects
(one per invocation kind × resolution mode). -/
inductive NextFnSel
  | sdFast
  | staticSlowPath
  | directSlowPath
  | superSlowPath
  | vFast
  | vSlowPath
  | ifaceFast
  | ifaceSlowPath
deriving DecidableEq, Repr

/-- Parameters threaded into every `NextCallInsn` invocation. -/
structure NextParams where
  sel : NextFnSel
  args0 : RegLocation
  tmIdx : Nat
  vtIdx : Nat
  directCode : Nat
  directMethod : Nat
deriving DecidableEq, Repr

/-- Dispatch to the selected `NextCallInsn` routine. -/
def nextInsn (env : Env) (isa : InstructionSet) (p : NextParams) (s : Int) :
    List Insn × Int :=
  match p.sel with
  | NextFnSel.sdFast => NextSDCallInsn env isa s p.tmIdx p.directCode p.directMethod
  | NextFnSel.vFast => NextVCallInsn env isa s p.args0 p.vtIdx
  | NextFnSel.ifaceFast => NextInterfaceCallInsn env isa s p.args0 p.tmIdx p.vtIdx
  | NextFnSel.staticSlowPath => NextStaticCallInsnSP env isa s p.tmIdx
  | NextFnSel.directSlowPath => NextDirectCallInsnSP env isa s p.tmIdx
  | NextFnSel.superSlowPath => NextSuperCallInsnSP env isa s p.tmIdx
  | NextFnSel.vSlowPath => NextVCallInsnSP env isa s p.tmIdx
  | NextFnSel.ifaceSlowPath => NextInterfaceCallInsnWithAccessCheck env isa s p.tmIdx

/-- Every `NextCallInsn` routine either terminates (negative result) or
advances to `s + 1` from some state `0 ≤ s ≤ 5`. -/
theorem nextInsn_snd_bound (env : Env) (isa : InstructionSet) (p : NextParams)
    (s : Int) :
    (nextInsn env isa p s).2 < 0 ∨
      ((nextInsn env isa p s).2 = s + 1 ∧ 0 ≤ s ∧ s ≤ 5) := by
  rcases p with ⟨sel, a0, tm, vt, dc, dm⟩
  cases sel <;>
    simp only [nextInsn, NextSDCallInsn, NextVCallInsn, NextInterfaceCallInsn,
      NextStaticCallInsnSP, NextDirectCallInsnSP, NextSuperCallInsnSP,
      NextVCallInsnSP, NextInterfaceCallInsnWithAccessCheck, NextInvokeInsnSP] <;>
    split_ifs <;> simp_all <;> omega

/-- Drain loop at the end of `GenInvokeNoInline`: pull the selected
`NextCallInsn` routine until it returns the negative terminal sentinel. -/
def drainCallSeq (env : Env) (isa : InstructionSet) (p : NextParams) (s : Int) :
    List Insn :=
  if h0 : s < 0 then []
  else
    (nextInsn env isa p s).1 ++
      (if h1 : (nextInsn env isa p s).2 < 0 then []
       else drainCallSeq env isa p (nextInsn env isa p s).2)
termination_by (7 - s).toNat
decreasing_by
  rcases nextInsn_snd_bound env isa p s with h | ⟨h, h2, h3⟩
  · omega
  · omega

/-- Trampoline selected by the x86 slow-path call emission, per invocation
kind (`GenInvokeNoInline`'s final `switch`). -/
def trampolineFor : InvokeType → ThreadHelper
  | InvokeType.interface => ThreadHelper.invokeInterfaceTrampolineWithAccessCheck
  | InvokeType.direct => ThreadHelper.invokeDirectTrampolineWithAccessCheck
  | InvokeType.static => ThreadHelper.invokeStaticTrampolineWithAccessCheck
  | InvokeType.super => ThreadHelper.invokeSuperTrampolineWithAccessCheck
  | InvokeType.virtual => ThreadHelper.invokeVirtualTrampolineWithAccessCheck

/-- `GenInvokeNoInline`'s selection of the `NextCallInsn` routine from the
sharpened invocation kind and the fast-path flag. -/
def nextCallInsnSel (ty : InvokeType) (fastPath : Bool) : NextFnSel :=
  match ty with
  | InvokeType.interface =>
    if fastPath then NextFnSel.ifaceFast else NextFnSel.ifaceSlowPath
  | InvokeType.direct =>
    if fastPath then NextFnSel.sdFast else NextFnSel.directSlowPath
  | InvokeType.static =>
    if fastPath then NextFnSel.sdFast else NextFnSel.staticSlowPath
  | InvokeType.super => NextFnSel.superSlowPath
  | InvokeType.virtual =>
    if fastPath then NextFnSel.vFast else NextFnSel.vSlowPath

/-- `skip_this` flag chosen alongside the routine: the receiver word is
pre-consumed by the virtual/interface fast paths. -/
def skipThisFor (ty : InvokeType) (fastPath : Bool) : Bool :=
  match ty with
  | InvokeType.interface => fastPath
  | InvokeType.virtual => fastPath
  | _ => false

/-- The call instruction emitted at the end of `GenInvokeNoInline`
(lines selecting register-indirect, linker-fixup, memory-indirect, or
thread-trampoline calls); `MarkSafepointPC` is applied to it unconditionally,
so its safepoint flag is `true`. -/
def genInvokeCallInst (env : Env) (isa : InstructionSet) (mi : MethodLoweringInfo) :
    Insn :=
  if isa ≠ InstructionSet.x86 then
    Insn.callInsn (CallTarget.reg regInvokeTgt) true
  else if mi.fastPath = true then
    if mi.directCode = UMAX then Insn.callInsn CallTarget.linkerFixup true
    else Insn.callInsn (CallTarget.mem regArg0 env.entryPointOff) true
  else
    Insn.callInsn (CallTarget.threadMem (trampolineFor mi.sharpType)) true

/-- `Mir2Lir::GenInvokeNoInline`: the full non-inlined invocation lowering —
flush, lock call temps, marshal arguments interleaved with dispatch steps,
drain the remaining dispatch steps, emit the safepoint-marked call, clobber,
and store a consumed result. -/
def GenInvokeNoInline (env : Env) (isa : InstructionSet)
    (updRaw updWide updLoc : RegLocation → RegLocation) (info : CallInfo)
    (mi : MethodLoweringInfo) : List Insn :=
  let p : NextParams :=
    { sel := nextCallInsnSel mi.sharpType mi.fastPath,
      args0 := info.args.getD 0 default,
      tmIdx := mi.tmIdx, vtIdx := mi.vtIdx,
      directCode := mi.directCode, directMethod := mi.directMethod }
  let skipThis := skipThisFor mi.sharpType mi.fastPath
  let pcr : Bool := decide (mi.sharpType = InvokeType.direct ∧ mi.fastPath = true)
  let next := nextInsn env isa p
  let margs :=
    if info.isRange = false then
      GenDalvikArgsNoRange env updRaw updWide next info 0 pcr skipThis
    else
      GenDalvikArgsRange env updRaw updWide updLoc next isa info 0 pcr skipThis
  Insn.flushAllRegs :: Insn.lockCallTemps :: (margs.1 ++ drainCallSeq env isa p margs.2 ++
    (genInvokeCallInst env isa mi :: Insn.clobberCallerSave ::
      (if info.result.location = Loc.invalid then []
       else if info.result.wide = true then
        [Insn.storeValueWide info.result (env.getReturnWide info.result.fp)]
       else [Insn.storeValue info.result (env.getReturn info.result.fp)])))

/-- `Mir2Lir::GenInvoke`: attempt intrinsic substitution; on decline
(`handled = false`) fall through to the full non-inlined lowering.
`attempt` is the (handled flag, emitted fast path) pair produced by the
inliner's intrinsic routine. -/
def GenInvoke (attempt : Bool × List Insn) (noInline : List Insn) : List Insn :=
  if attempt.1 = true then attempt.2 else attempt.2 ++ noInline

/-- `Mir2Lir::InlineTarget`: the intrinsic's result location, defaulting to
the standard return location when the result is unused. -/
def InlineTarget (env : Env) (info : CallInfo) : RegLocation :=
  if info.result.location = Loc.invalid then env.getReturn false else info.result

/-- `Mir2Lir::GenInlinedIndexOf`: inline fast path for `String.indexOf`.
Declines (`false`, nothing emitted) on MIPS and for a constant search
character above `0xFFFF`; `charConstVal` is the 32-bit pattern of
`mir_graph_->ConstantValue(rl_char)`.  The helper call it emits is not
safepoint-marked. -/
def GenInlinedIndexOf (env : Env) (isa : InstructionSet) (info : CallInfo)
    (zeroBased : Bool) (charConstVal : Nat) : Bool × List Insn :=
  let rlObj := info.args.getD 0 default
  let rlChar := info.args.getD 1 default
  if isa = InstructionSet.mips then (false, [])
  else if rlChar.isConst = true ∧ (charConstVal &&& 0xFFFF0000) ≠ 0 then (false, [])
  else
    (true,
     [Insn.clobberCallerSave, Insn.lockCallTemps,
      Insn.loadValueDirectFixed rlObj regArg0,
      Insn.loadValueDirectFixed rlChar regArg1] ++
      (if zeroBased = true then [Insn.loadConstant regArg2 0]
       else [Insn.loadValueDirectFixed (info.args.getD 2 default) regArg2]) ++
      [Insn.loadHelperInsn ThreadHelper.indexOfHelper, Insn.genNullCheck regArg0] ++
      (if rlChar.isConst = false then
        [Insn.opCmpImmBranch CondKind.gt regArg1 0xFFFF]
       else []) ++
      [Insn.callInsn (CallTarget.helperReg ThreadHelper.indexOfHelper) false] ++
      (if rlChar.isConst = false then
        [Insn.pseudoTargetLabel, Insn.setIgnoreNullCheckFlag, Insn.addLaunchpad true]
       else []) ++
      [Insn.storeValue (InlineTarget env info) (env.getReturn false)])

/-- `Mir2Lir::GenInlinedStringCompareTo`: inline fast path for
`String.compareTo`.  Declines on MIPS; registers a launchpad with no resume
label; its helper call is not safepoint-marked. -/
def GenInlinedStringCompareTo (env : Env) (isa : InstructionSet)
    (info : CallInfo) : Bool × List Insn :=
  if isa = InstructionSet.mips then (false, [])
  else
    (true,
     [Insn.clobberCallerSave, Insn.lockCallTemps,
      Insn.loadValueDirectFixed (info.args.getD 0 default) regArg0,
      Insn.loadValueDirectFixed (info.args.getD 1 default) regArg1] ++
      (if isa ≠ InstructionSet.x86 then
        [Insn.loadHelperInsn ThreadHelper.stringCompareToHelper]
       else []) ++
      [Insn.genNullCheck regArg0, Insn.setIgnoreNullCheckFlag,
       Insn.opCmpImmBranch CondKind.eq regArg1 0,
       Insn.addLaunchpad false] ++
      [if isa ≠ InstructionSet.x86 then
        Insn.callInsn (CallTarget.helperReg ThreadHelper.stringCompareToHelper) false
       else Insn.callInsn (CallTarget.threadMem ThreadHelper.stringCompareToHelper) false] ++
      [Insn.storeValue (InlineTarget env info) (env.getReturn false)])

/-- `IntrinsicLaunchpadPath::Compile` (`AddIntrinsicLaunchpad`): the deferred
out-of-line block — reset the register pool and definition tracking, place the
retry label, re-issue the invocation (`reissue` is the `GenInvokeNoInline`
emission), and branch back to the resume label only when one was supplied
(`cont_ != nullptr`). -/
def IntrinsicLaunchpadCompile (reissue : List Insn) (hasCont : Bool) : List Insn :=
  [Insn.resetRegPool, Insn.resetDefTracking, Insn.pseudoIntrinsicRetryLabel] ++
    reissue ++ (if hasCont = true then [Insn.opUncondBranch] else [])

/-- Source-frame bytes read by one instruction of the x86 bulk-copy loop. -/
def insnSrcBytes : Insn → Nat
  | Insn.movRegMem MovKind.a128 _ => 16
  | Insn.movRegMem MovKind.u128 _ => 16
  | Insn.movRegMem MovKind.lo128 _ => 8
  | Insn.movRegMem MovKind.hi128 _ => 8
  | Insn.loadWordDisp _ _ _ => 4
  | _ => 0

/-- Total bytes moved out of the caller's frame by an instruction sequence. -/
def movedBytes (l : List Insn) : Nat := (l.map insnSrcBytes).sum

/-- Number of 128-bit-class transfers (one xmm temporary each). -/
def xmm128Count (l : List Insn) : Nat :=
  l.countP fun i => match i with
    | Insn.allocTempDouble => true
    | _ => false

/-- Number of 32-bit fallback word copies. -/
def wordMoveCount (l : List Insn) : Nat :=
  l.countP fun i => match i with
    | Insn.loadWordDisp _ _ _ => true
    | _ => false

/-- Counterexample to claim C1: for the resolving static/direct fast path
(`direct_code = direct_method = 0`) at step 3, x86 already returns the
negative terminal sentinel while Thumb2 returns next-step index 4 — so the
step at which the sentinel is first returned differs between architectures. -/
theorem c1_counterexample :
    (NextSDCallInsn env0 InstructionSet.x86 3 0 0 0).2 = -1 ∧
    (NextSDCallInsn env0 InstructionSet.thumb2 3 0 0 0).2 = 4 ∧
    (NextSDCallInsn env0 InstructionSet.x86 3 0 0 0).2 ≠
      (NextSDCallInsn env0 InstructionSet.thumb2 3 0 0 0).2 := by
  decide

/-- Claim C1 (amended): the step indices returned by every dispatch-resolution
routine are architecture-independent, except that on the fast-path routines a
memory-indirect architecture (x86) returns the terminal sentinel at the final
entry-point-load step itself — one step earlier than the other architectures —
rather than performing it as a step that emits nothing; the statically-known
static/direct path and all slow paths are architecture-identical in indices. -/
theorem c1_theorem (env : Env) (isa : InstructionSet) (s : Int)
    (tm vt dc dm : Nat) (a0 : RegLocation) :
    (dc ≠ 0 ∧ dm ≠ 0 →
      (NextSDCallInsn env isa s tm dc dm).2 = if s = 0 then 1 else -1) ∧
    (¬(dc ≠ 0 ∧ dm ≠ 0) → isa ≠ InstructionSet.x86 →
      (NextSDCallInsn env isa s tm dc dm).2 =
        if 0 ≤ s ∧ s ≤ 3 then s + 1 else -1) ∧
    (¬(dc ≠ 0 ∧ dm ≠ 0) →
      (NextSDCallInsn env InstructionSet.x86 s tm dc dm).2 =
        if 0 ≤ s ∧ s ≤ 2 then s + 1 else -1) ∧
    (isa ≠ InstructionSet.x86 →
      (NextVCallInsn env isa s a0 vt).2 = if 0 ≤ s ∧ s ≤ 4 then s + 1 else -1) ∧
    ((NextVCallInsn env InstructionSet.x86 s a0 vt).2 =
      if 0 ≤ s ∧ s ≤ 3 then s + 1 else -1) ∧
    (isa ≠ InstructionSet.x86 →
      (NextInterfaceCallInsn env isa s a0 tm vt).2 =
        if 0 ≤ s ∧ s ≤ 5 then s + 1 else -1) ∧
    ((NextInterfaceCallInsn env InstructionSet.x86 s a0 tm vt).2 =
      if 0 ≤ s ∧ s ≤ 4 then s + 1 else -1) ∧
    (∀ t : ThreadHelper,
      (NextInvokeInsnSP env isa t s tm).2 = if s = 0 then 1 else -1) := by
  refine ⟨fun h => ?_, fun h hx => ?_, fun h => ?_, fun hx => ?_, ?_,
    fun hx => ?_, ?_, fun t => ?_⟩ <;>
    simp only [NextSDCallInsn, NextVCallInsn, NextInterfaceCallInsn,
      NextInvokeInsnSP] <;>
    split_ifs <;> simp_all <;> omega

/-- Witness for C1 (amended): on Thumb2 the resolving static/direct path at
step 3 advances to step 4 (the entry-point load). -/
theorem c1_witness :
    ¬((0 : Nat) ≠ 0 ∧ (0 : Nat) ≠ 0) ∧
    InstructionSet.thumb2 ≠ InstructionSet.x86 ∧
    (NextSDCallInsn env0 InstructionSet.thumb2 3 0 0 0).2 = 4 := by
  refine ⟨by decide, by decide, ?_⟩
  have h :=
    (c1_theorem env0 InstructionSet.thumb2 3 0 0 0 0 default).2.1
      (by decide) (by decide)
  simpa using h

/-- Counterexample to claim C2: on x86 with statically known code address (5)
and method pointer (7), step 0 emits only the method-pointer load — nothing
is loaded into the invoke-target role. -/
theorem c2_counterexample :
    (NextSDCallInsn env0 InstructionSet.x86 0 0 5 7).1 =
      [Insn.loadConstant regArg0 7] ∧
    Insn.loadConstant regInvokeTgt 5 ∉
      (NextSDCallInsn env0 InstructionSet.x86 0 0 5 7).1 ∧
    Insn.loadCodeAddress regInvokeTgt ∉
      (NextSDCallInsn env0 InstructionSet.x86 0 0 5 7).1 := by
  decide

/-- Claim C2 (amended): with both the code address and the method pointer
statically known (nonzero), the static/direct routine performs exactly one
productive step — step 0 loads the method pointer into argument-0 (constant
or position-independent load) and, on architectures other than x86, the code
address into the invoke-target role (on x86 the emission is exactly the
method-pointer load, the call itself dereferencing memory) — and every other
step returns the terminal sentinel with no instructions. -/
theorem c2_theorem (env : Env) (isa : InstructionSet) (s : Int)
    (tm dc dm : Nat) (hdc : dc ≠ 0) (hdm : dm ≠ 0) :
    (s = 0 →
      (NextSDCallInsn env isa s tm dc dm).2 = 1 ∧
      (Insn.loadConstant regArg0 (dm : Int) ∈ (NextSDCallInsn env isa s tm dc dm).1 ∨
        Insn.loadMethodAddress regArg0 ∈ (NextSDCallInsn env isa s tm dc dm).1) ∧
      (isa ≠ InstructionSet.x86 →
        (Insn.loadConstant regInvokeTgt (dc : Int) ∈
            (NextSDCallInsn env isa s tm dc dm).1 ∨
          Insn.loadCodeAddress regInvokeTgt ∈ (NextSDCallInsn env isa s tm dc dm).1)) ∧
      (isa = InstructionSet.x86 →
        (NextSDCallInsn env isa s tm dc dm).1 =
          if dm ≠ UMAX then [Insn.loadConstant regArg0 (dm : Int)]
          else [Insn.loadMethodAddress regArg0])) ∧
    (s ≠ 0 → NextSDCallInsn env isa s tm dc dm = ([], -1)) := by
  constructor
  · intro hs
    subst hs
    simp only [NextSDCallInsn, if_pos (And.intro hdc hdm), if_pos rfl]
    refine ⟨by norm_num, ?_, ?_, ?_⟩
    · by_cases h : dm = UMAX <;> simp [h]
    · intro hx
      by_cases h : dc = UMAX <;> simp [h, hx]
    · intro hx
      by_cases h : dm = UMAX <;> simp [h, hx]
  · intro hs
    simp only [NextSDCallInsn, if_pos (And.intro hdc hdm), if_neg hs]

/-- Witness for C2 (amended): on Thumb2 with code address 5 and method
pointer 7, step 0 returns 1. -/
theorem c2_witness :
    (5 : Nat) ≠ 0 ∧ (7 : Nat) ≠ 0 ∧
    (NextSDCallInsn env0 InstructionSet.thumb2 0 0 5 7).2 = 1 := by
  refine ⟨by decide, by decide, ?_⟩
  exact ((c2_theorem env0 InstructionSet.thumb2 0 0 5 7 (by decide)
    (by decide)).1 rfl).1

/-- Counterexample to claim C3: on x86 the unresolved-virtual slow path at
state 0 emits only the method-index load — the trampoline address is not
loaded into the invoke-target role. -/
theorem c3_counterexample :
    (NextVCallInsnSP env0 InstructionSet.x86 0 9).1 =
      [Insn.loadConstant regArg0 9] ∧
    Insn.loadWordDisp regSelf
        (env0.threadOff ThreadHelper.invokeVirtualTrampolineWithAccessCheck)
        regInvokeTgt ∉ (NextVCallInsnSP env0 InstructionSet.x86 0 9).1 := by
  decide

/-- Claim C3 (amended): for every invocation kind in unresolved mode the
routine performs exactly one step: state 0 loads the raw dex method index
into argument-0, returns 1, and on architectures other than x86 also loads
the kind-specific trampoline address into the invoke-target role (on x86 the
emission is exactly the index load, the call going through thread memory);
any other state returns the terminal sentinel with no instructions, and an
unresolved virtual call emits no class-pointer or vtable dereference — its
only memory load is from the thread register. -/
theorem c3_theorem (env : Env) (isa : InstructionSet) (t : ThreadHelper)
    (s : Int) (tm : Nat) :
    (s = 0 →
      (NextInvokeInsnSP env isa t s tm).2 = 1 ∧
      Insn.loadConstant regArg0 (tm : Int) ∈ (NextInvokeInsnSP env isa t s tm).1 ∧
      (isa ≠ InstructionSet.x86 →
        Insn.loadWordDisp regSelf (env.threadOff t) regInvokeTgt ∈
          (NextInvokeInsnSP env isa t s tm).1) ∧
      (isa = InstructionSet.x86 →
        (NextInvokeInsnSP env isa t s tm).1 = [Insn.loadConstant regArg0 (tm : Int)])) ∧
    (s ≠ 0 → NextInvokeInsnSP env isa t s tm = ([], -1)) ∧
    (∀ b d r, Insn.loadWordDisp b d r ∈ (NextVCallInsnSP env isa s tm).1 →
      b = regSelf) := by
  refine ⟨fun hs => ?_, fun hs => ?_, fun b d r hmem => ?_⟩
  · subst hs
    simp only [NextInvokeInsnSP, if_pos rfl]
    refine ⟨rfl, by simp, fun hx => by simp [hx], fun hx => by simp [hx]⟩
  · simp only [NextInvokeInsnSP, if_neg hs]
  · simp only [NextVCallInsnSP, NextInvokeInsnSP] at hmem
    split_ifs at hmem <;> simp_all

/-- Witness for C3 (amended): on Thumb2 the unresolved-virtual slow path at
state 0 returns 1. -/
theorem c3_witness :
    (0 : Int) = 0 ∧
    (NextInvokeInsnSP env0 InstructionSet.thumb2
      ThreadHelper.invokeVirtualTrampolineWithAccessCheck 0 9).2 = 1 := by
  refine ⟨rfl, ?_⟩
  exact ((c3_theorem env0 InstructionSet.thumb2
    ThreadHelper.invokeVirtualTrampolineWithAccessCheck 0 9).1 rfl).1

/-- If an incoming wide argument word arrives in a register and its paired
half's promotion record differs (half-promoted), the `FlushIns` loop body
flushes the word to its stack home. -/
theorem flushInsArg_mismatch_store (env : Env) (isa : InstructionSet)
    (pmap : Int → PromotionMap) (argMap : Nat → Int) (startVreg : Int)
    (i : Nat) (tloc : RegLocation)
    (hreg : argMap i ≠ INVALID_REG)
    (hw : tloc.wide = true)
    (hmis :
      (pmap (startVreg + (i : Int) +
        (if tloc.highWord = true then -1 else 1))).coreLocation ≠
          (pmap (startVreg + (i : Int))).coreLocation ∨
      (pmap (startVreg + (i : Int) +
        (if tloc.highWord = true then -1 else 1))).fpLocation ≠
          (pmap (startVreg + (i : Int))).fpLocation) :
    Insn.storeBaseDisp regSp (env.sro (startVreg + (i : Int))) (argMap i) ∈
      FlushInsArg env isa pmap argMap startVreg i tloc := by
  simp only [FlushInsArg]
  rw [if_pos hreg]
  rcases hmis with h | h <;> split_ifs <;> simp_all

/-- Everything emitted for argument `i` by the `FlushIns` loop body is in the
loop's output. -/
theorem flushInsLoop_mem (env : Env) (isa : InstructionSet)
    (pmap : Int → PromotionMap) (argMap : Nat → Int) (startVreg : Int) :
    ∀ (l : List RegLocation) (j i : Nat) (t : RegLocation), l.get? i = some t →
      ∀ x ∈ FlushInsArg env isa pmap argMap startVreg (j + i) t,
        x ∈ FlushInsLoop env isa pmap argMap startVreg j l := by
  intro l
  induction l with
  | nil => intro j i t h; simp at h
  | cons a rest ih =>
    intro j i t h x hx
    cases i with
    | zero =>
      simp only [List.get?] at h
      injection h with h
      subst h
      simp only [FlushInsLoop, List.mem_append]
      exact Or.inl hx
    | succ k =>
      simp only [List.get?] at h
      have e : j + 1 + k = j + (k + 1) := by omega
      have := ih (j + 1) k t h x (by rwa [e])
      simp only [FlushInsLoop, List.mem_append]
      exact Or.inr this

/-- Claim C4: in `FlushIns`, every wide incoming argument word whose two
halves were not identically promoted (the paired virtual register's core or
floating promotion state differs from this half's) is flushed to its stack
home whenever it arrived in a register — regardless of whether this half had
a matching promoted register — so the value is never left readable only as a
register pair. -/
theorem c4_theorem (env : Env) (isa : InstructionSet)
    (pmap : Int → PromotionMap) (argMap : Nat → Int) (startVreg : Int)
    (rlMethod : RegLocation) (argLocs : List RegLocation) (i : Nat)
    (tloc : RegLocation)
    (hget : argLocs.get? i = some tloc)
    (hw : tloc.wide = true)
    (hreg : argMap i ≠ INVALID_REG)
    (hmis :
      (pmap (startVreg + (i : Int) +
        (if tloc.highWord = true then -1 else 1))).coreLocation ≠
          (pmap (startVreg + (i : Int))).coreLocation ∨
      (pmap (startVreg + (i : Int) +
        (if tloc.highWord = true then -1 else 1))).fpLocation ≠
          (pmap (startVreg + (i : Int))).fpLocation) :
    Insn.storeBaseDisp regSp (env.sro (startVreg + (i : Int))) (argMap i) ∈
      FlushIns env isa pmap argMap startVreg rlMethod argLocs := by
  have h1 := flushInsArg_mismatch_store env isa pmap argMap startVreg i tloc
    hreg hw hmis
  have h1' : Insn.storeBaseDisp regSp (env.sro (startVreg + (i : Int))) (argMap i) ∈
      FlushInsArg env isa pmap argMap startVreg (0 + i) tloc := by
    rwa [Nat.zero_add]
  have h2 := flushInsLoop_mem env isa pmap argMap startVreg argLocs 0 i tloc
    hget _ h1'
  simp only [FlushIns, List.append_assoc, List.mem_append, List.mem_cons]
  tauto

/-- A half-promoted wide-argument promotion map used to instantiate C4:
virtual register 0 is core-promoted, its pair (vreg 1) is not. -/
def pmapHalf : Int → PromotionMap := fun j =>
  if j = 0 then
    { coreLocation := Loc.physReg, coreReg := 10,
      fpLocation := Loc.invalid, fpReg := 0 }
  else default

/-- The low word of a wide (non-floating) incoming argument. -/
def rlWide0 : RegLocation := { (default : RegLocation) with wide := true }

/-- Witness for C4: with vreg 0 core-promoted and vreg 1 unpromoted, the
wide argument word arriving in register 5 is flushed to its stack home. -/
theorem c4_witness :
    ([rlWide0].get? 0 = some rlWide0) ∧ rlWide0.wide = true ∧
    ((fun _ : Nat => (5 : Int)) 0 ≠ INVALID_REG) ∧
    ((pmapHalf ((0 : Int) + (0 : Nat) +
        (if rlWide0.highWord = true then -1 else 1))).coreLocation ≠
      (pmapHalf ((0 : Int) + (0 : Nat))).coreLocation) ∧
    Insn.storeBaseDisp regSp (env0.sro ((0 : Int) + (0 : Nat))) 5 ∈
      FlushIns env0 InstructionSet.mips pmapHalf (fun _ => 5) 0 default [rlWide0] := by
  refine ⟨by decide, by decide, by decide, by decide, ?_⟩
  exact c4_theorem env0 InstructionSet.mips pmapHalf (fun _ => 5) 0 default
    [rlWide0] 0 rlWide0 (by decide) (by decide) (by decide)
    (Or.inl (by decide))

/-- On Thumb2, a wide floating argument whose halves are both
floating-promoted is still flushed by the `FlushIns` loop body when the
promoted pair violates the even/odd adjacency rule. -/
theorem flushInsArg_badpair_store (env : Env) (pmap : Int → PromotionMap)
    (argMap : Nat → Int) (startVreg : Int) (i : Nat) (tloc : RegLocation)
    (hreg : argMap i ≠ INVALID_REG)
    (hw : tloc.wide = true)
    (hfp : tloc.fp = true)
    (hp1 : (pmap (startVreg + (i : Int))).fpLocation = Loc.physReg)
    (hp2 : (pmap (startVreg + (i : Int) +
      (if tloc.highWord = true then -1 else 1))).fpLocation = Loc.physReg)
    (hbad :
      (pmap (startVreg + (i : Int) +
        (if tloc.highWord = true then -1 else 0))).fpReg % 2 ≠ 0 ∨
      (pmap (startVreg + (i : Int) +
        (if tloc.highWord = true then -1 else 0) + 1)).fpReg ≠
        (pmap (startVreg + (i : Int) +
          (if tloc.highWord = true then -1 else 0))).fpReg + 1) :
    Insn.storeBaseDisp regSp (env.sro (startVreg + (i : Int))) (argMap i) ∈
      FlushInsArg env InstructionSet.thumb2 pmap argMap startVreg i tloc := by
  by_cases hcore :
    (pmap (startVreg + (i : Int) +
      (if tloc.highWord = true then -1 else 1))).coreLocation =
      (pmap (startVreg + (i : Int))).coreLocation
  · simp only [FlushInsArg]
    rw [if_pos hreg]
    rcases hbad with h | h <;> split_ifs <;> simp_all
  · exact flushInsArg_mismatch_store env InstructionSet.thumb2 pmap argMap
      startVreg i tloc hreg hw (Or.inl hcore)

/-- Claim C5: in `FlushIns` on Thumb2, a wide floating incoming argument in a
register whose two halves are both promoted to floating registers is
nevertheless flushed to its stack home whenever the promoted pair violates
the pairing rule — the low register is odd or the high register is not the
low register plus one. -/
theorem c5_theorem (env : Env) (pmap : Int → PromotionMap)
    (argMap : Nat → Int) (startVreg : Int) (rlMethod : RegLocation)
    (argLocs : List RegLocation) (i : Nat) (tloc : RegLocation)
    (hget : argLocs.get? i = some tloc)
    (hw : tloc.wide = true)
    (hfp : tloc.fp = true)
    (hreg : argMap i ≠ INVALID_REG)
    (hp1 : (pmap (startVreg + (i : Int))).fpLocation = Loc.physReg)
    (hp2 : (pmap (startVreg + (i : Int) +
      (if tloc.highWord = true then -1 else 1))).fpLocation = Loc.physReg)
    (hbad :
      (pmap (startVreg + (i : Int) +
        (if tloc.highWord = true then -1 else 0))).fpReg % 2 ≠ 0 ∨
      (pmap (startVreg + (i : Int) +
        (if tloc.highWord = true then -1 else 0) + 1)).fpReg ≠
        (pmap (startVreg + (i : Int) +
          (if tloc.highWord = true then -1 else 0))).fpReg + 1) :
    Insn.storeBaseDisp regSp (env.sro (startVreg + (i : Int))) (argMap i) ∈
      FlushIns env InstructionSet.thumb2 pmap argMap startVreg rlMethod argLocs := by
  have h1 := flushInsArg_badpair_store env pmap argMap startVreg i tloc
    hreg hw hfp hp1 hp2 hbad
  have h1' : Insn.storeBaseDisp regSp (env.sro (startVreg + (i : Int))) (argMap i) ∈
      FlushInsArg env InstructionSet.thumb2 pmap argMap startVreg (0 + i) tloc := by
    rwa [Nat.zero_add]
  have h2 := flushInsLoop_mem env InstructionSet.thumb2 pmap argMap startVreg
    argLocs 0 i tloc hget _ h1'
  simp only [FlushIns, List.append_assoc, List.mem_append, List.mem_cons]
  tauto

/-- A fully floating-promoted but misaligned pair: vreg 0 promoted to odd
floating register 17, vreg 1 to register 18. -/
def pmapOddPair : Int → PromotionMap := fun j =>
  if j = 0 then
    { coreLocation := Loc.invalid, coreReg := 0,
      fpLocation := Loc.physReg, fpReg := 17 }
  else if j = 1 then
    { coreLocation := Loc.invalid, coreReg := 0,
      fpLocation := Loc.physReg, fpReg := 18 }
  else default

/-- The low word of a wide floating incoming argument. -/
def rlWideFp0 : RegLocation :=
  { (default : RegLocation) with wide := true, fp := true }

/-- Witness for C5: the pair (s17, s18) is fully floating-promoted but starts
at an odd register, so the argument word arriving in register 5 is flushed. -/
theorem c5_witness :
    ([rlWideFp0].get? 0 = some rlWideFp0) ∧ rlWideFp0.wide = true ∧
    rlWideFp0.fp = true ∧ ((5 : Int) ≠ INVALID_REG) ∧
    (pmapOddPair ((0 : Int) + (0 : Nat))).fpLocation = Loc.physReg ∧
    (pmapOddPair ((0 : Int) + (0 : Nat) +
      (if rlWideFp0.highWord = true then -1 else 1))).fpLocation = Loc.physReg ∧
    ((pmapOddPair ((0 : Int) + (0 : Nat) +
      (if rlWideFp0.highWord = true then -1 else 0))).fpReg % 2 ≠ 0) ∧
    Insn.storeBaseDisp regSp (env0.sro ((0 : Int) + (0 : Nat))) 5 ∈
      FlushIns env0 InstructionSet.thumb2 pmapOddPair (fun _ => 5) 0 default
        [rlWideFp0] := by
  refine ⟨by decide, by decide, by decide, by decide, by decide, by decide,
    by decide, ?_⟩
  exact c5_theorem env0 pmapOddPair (fun _ => 5) 0 default [rlWideFp0] 0
    rlWideFp0 (by decide) (by decide) (by decide) (by decide) (by decide)
    (by decide) (Or.inl (by decide))

/-- The x86 bulk-copy loop moves exactly `regsLeft * 4` bytes out of the
caller's frame, for any alignment of the source and destination offsets. -/
theorem x86ArgsCopyLoop_bytes (n : Nat) :
    ∀ s d : Int, movedBytes (x86ArgsCopyLoop s d n) = n * 4 := by
  induction n using Nat.strong_induction_on with
  | _ n ih =>
    intro s d
    by_cases h0 : n = 0
    · subst h0
      rw [x86ArgsCopyLoop]
      simp [movedBytes]
    · have ih4 := ih (n - 4) (by omega) (s + 16) (d + 16)
      have ih1 := ih (n - 1) (by omega) (s + 4) (d + 4)
      rw [x86ArgsCopyLoop]
      split_ifs <;> simp_all [movedBytes, insnSrcBytes] <;> omega

/-- When exactly 4 words remain, the x86 bulk-copy loop performs exactly one
128-bit-class transfer and no 32-bit fallback copy. -/
theorem x86ArgsCopyLoop_four (s d : Int) :
    xmm128Count (x86ArgsCopyLoop s d 4) = 1 ∧
    wordMoveCount (x86ArgsCopyLoop s d 4) = 0 := by
  rw [x86ArgsCopyLoop]
  norm_num
  rw [x86ArgsCopyLoop]
  norm_num [xmm128Count, wordMoveCount]
  split_ifs <;> simp

/-- Counterexample to claim C6: the bulk-copy loop with 1 stack-resident word
moves 4 bytes, not `(1 − 3) × 4 = −8`; with 4 stack-resident words it moves
16 bytes, not `(4 − 3) × 4 = 4`.  The `(count − 3) × 4` total holds only when
`count` is the total argument-word count, of which `count − 3` words are
stack-resident. -/
theorem c6_counterexample :
    (movedBytes (x86ArgsCopyLoop 0 16 1) : Int) = 4 ∧
    ((1 : Int) - 3) * 4 = -8 ∧
    (movedBytes (x86ArgsCopyLoop 0 16 4) : Int) = 16 ∧
    ((4 : Int) - 3) * 4 = 4 ∧ (16 : Int) ≠ 4 := by
  have h1 := x86ArgsCopyLoop_bytes 1 0 16
  have h4 := x86ArgsCopyLoop_bytes 4 0 16
  exact ⟨by rw [h1]; norm_num, by norm_num, by rw [h4]; norm_num, by norm_num,
    by norm_num⟩

/-- Claim C6 (amended): the x86 range-path bulk copy moves exactly
`c × 4` bytes from the caller's frame for `c` stack-resident argument words
(equivalently `(count − 3) × 4` where `count` is the total argument-word
count), and when exactly 4 words remain to be moved exactly one
128-bit-class transfer is chosen with no smaller fallback; total counts ≤ 5
never reach the bulk copy — the range path delegates them to the compact
path. -/
theorem c6_theorem (env : Env) (u1 u2 u3 : RegLocation → RegLocation)
    (next : Int → List Insn × Int) (info : CallInfo) (cs : Int)
    (pcr skipThis : Bool) (s d : Int) (n : Nat) :
    movedBytes (x86ArgsCopyLoop s d n) = n * 4 ∧
    xmm128Count (x86ArgsCopyLoop s d 4) = 1 ∧
    wordMoveCount (x86ArgsCopyLoop s d 4) = 0 ∧
    (info.numArgWords ≤ 5 →
      GenDalvikArgsRange env u1 u2 u3 next InstructionSet.x86 info cs pcr skipThis =
        GenDalvikArgsNoRange env u1 u2 next info cs pcr skipThis) := by
  refine ⟨x86ArgsCopyLoop_bytes n s d, (x86ArgsCopyLoop_four s d).1,
    (x86ArgsCopyLoop_four s d).2, fun h => ?_⟩
  simp only [GenDalvikArgsRange]
  rw [if_pos h]

/-- A 4-argument range-encoded call descriptor. -/
def infoFour : CallInfo :=
  { numArgWords := 4, args := [], isRange := true, result := default }

/-- Witness for C6 (amended): a range-encoded call with 4 argument words is
delegated to the compact path. -/
theorem c6_witness :
    infoFour.numArgWords ≤ 5 ∧
    GenDalvikArgsRange env0 id id id (fun _ => ([], -1)) InstructionSet.x86
        infoFour 0 false false =
      GenDalvikArgsNoRange env0 id id (fun _ => ([], -1)) infoFour 0 false false := by
  exact ⟨by decide,
    (c6_theorem env0 id id id (fun _ => ([], -1)) infoFour 0 false false 0 0
      0).2.2.2 (by decide)⟩

/-- No dispatch-resolution routine emits an unconditional branch. -/
theorem nextInsn_no_ub (env : Env) (isa : InstructionSet) (p : NextParams)
    (s : Int) : Insn.opUncondBranch ∉ (nextInsn env isa p s).1 := by
  rcases p with ⟨sel, a0, tm, vt, dc, dm⟩
  cases sel <;>
    simp only [nextInsn, NextSDCallInsn, NextVCallInsn, NextInterfaceCallInsn,
      NextStaticCallInsnSP, NextDirectCallInsnSP, NextSuperCallInsnSP,
      NextVCallInsnSP, NextInterfaceCallInsnWithAccessCheck, NextInvokeInsnSP] <;>
    split_ifs <;> simp

/-- The drain loop emits no unconditional branch (fuel-indexed induction). -/
theorem drainCallSeq_no_ub_fuel (env : Env) (isa : InstructionSet)
    (p : NextParams) :
    ∀ (fuel : Nat) (s : Int), (7 - s).toNat ≤ fuel →
      Insn.opUncondBranch ∉ drainCallSeq env isa p s := by
  intro fuel
  induction fuel with
  | zero =>
    intro s hs
    rw [drainCallSeq]
    split_ifs with h0 h1
    · simp
    · simpa using nextInsn_no_ub env isa p s
    · exfalso
      rcases nextInsn_snd_bound env isa p s with h | ⟨h, h2, h3⟩
      · omega
      · omega
  | succ n ih =>
    intro s hs
    rw [drainCallSeq]
    split_ifs with h0 h1
    · simp
    · simpa using nextInsn_no_ub env isa p s
    · intro hmem
      rcases List.mem_append.mp hmem with h | h
      · exact nextInsn_no_ub env isa p s h
      · refine ih (nextInsn env isa p s).2 ?_ h
        rcases nextInsn_snd_bound env isa p s with hb | ⟨hb, hb2, hb3⟩
        · omega
        · omega

/-- The drain loop emits no unconditional branch. -/
theorem drainCallSeq_no_ub (env : Env) (isa : InstructionSet) (p : NextParams)
    (s : Int) : Insn.opUncondBranch ∉ drainCallSeq env isa p s :=
  drainCallSeq_no_ub_fuel env isa p (7 - s).toNat s le_rfl

/-- `LoadArgRegs` emits no unconditional branch when the interleaved dispatch
steps do not. -/
theorem loadArgRegsAux_no_ub (next : Int → List Insn × Int)
    (updRaw : RegLocation → RegLocation)
    (hnext : ∀ s : Int, Insn.opUncondBranch ∉ (next s).1) :
    ∀ (fuel : Nat) (args : List RegLocation) (nextReg : Int) (cs : Int),
      args.length ≤ fuel →
      Insn.opUncondBranch ∉ (LoadArgRegsAux next updRaw nextReg args cs).1 := by
  intro fuel
  induction fuel with
  | zero =>
    intro args nextReg cs h
    have hargs : args = [] := List.length_eq_zero.mp (Nat.le_zero.mp h)
    subst hargs
    simp [LoadArgRegsAux]
  | succ n ih =>
    intro args nextReg cs h
    cases args with
    | nil => simp [LoadArgRegsAux]
    | cons a rest =>
      have hr : rest.length ≤ n := by simpa using h
      have hrt : rest.tail.length ≤ n := by
        rw [List.length_tail]; omega
      have ihA : ∀ (r c : Int),
          Insn.opUncondBranch ∉ (LoadArgRegsAux next updRaw r rest.tail c).1 :=
        fun r c => ih rest.tail r c hrt
      have ihB : ∀ (r c : Int),
          Insn.opUncondBranch ∉ (LoadArgRegsAux next updRaw r rest c).1 :=
        fun r c => ih rest r c hr
      simp only [LoadArgRegsAux]
      split_ifs <;> simp [hnext, ihA, ihB]

/-- The compact-path stack-copy loop emits no unconditional branch. -/
theorem genArgsNoRangeLoop_no_ub (env : Env)
    (updRaw : RegLocation → RegLocation) (next : Int → List Insn × Int)
    (args : List RegLocation) (num : Nat)
    (hnext : ∀ s : Int, Insn.opUncondBranch ∉ (next s).1) :
    ∀ (fuel nextUse : Nat) (cs : Int), num - nextUse ≤ fuel →
      Insn.opUncondBranch ∉ (genArgsNoRangeLoop env updRaw next args num nextUse cs).1 := by
  intro fuel
  induction fuel with
  | zero =>
    intro nu cs h
    rw [genArgsNoRangeLoop, dif_neg (by omega)]
    simp
  | succ n ih =>
    intro nu cs h
    by_cases hlt : nu < num
    · have ih2 : ∀ c : Int,
          Insn.opUncondBranch ∉ (genArgsNoRangeLoop env updRaw next args num (nu + 2) c).1 :=
        fun c => ih (nu + 2) c (by omega)
      have ih1 : ∀ c : Int,
          Insn.opUncondBranch ∉ (genArgsNoRangeLoop env updRaw next args num (nu + 1) c).1 :=
        fun c => ih (nu + 1) c (by omega)
      rw [genArgsNoRangeLoop, dif_pos hlt]
      dsimp only
      split_ifs <;> simp [hnext, ih1, ih2]
    · rw [genArgsNoRangeLoop, dif_neg hlt]
      simp

/-- The range-path promoted-value flush loop emits no unconditional branch. -/
theorem genArgsRangeFlushLoop_no_ub (env : Env)
    (updWide updLoc : RegLocation → RegLocation) (args : List RegLocation)
    (num : Nat) :
    ∀ (fuel nextArg : Nat), num - nextArg ≤ fuel →
      Insn.opUncondBranch ∉ genArgsRangeFlushLoop env updWide updLoc args num nextArg := by
  intro fuel
  induction fuel with
  | zero =>
    intro na h
    rw [genArgsRangeFlushLoop, dif_neg (by omega)]
    simp
  | succ n ih =>
    intro na h
    by_cases hlt : na < num
    · rw [genArgsRangeFlushLoop, dif_pos hlt]
      dsimp only
      split_ifs <;> simp [ih (na + 2) (by omega), ih (na + 1) (by omega)]
    · rw [genArgsRangeFlushLoop, dif_neg hlt]
      simp

/-- The x86 bulk-copy loop emits no unconditional branch. -/
theorem x86ArgsCopyLoop_no_ub (n : Nat) :
    ∀ s d : Int, Insn.opUncondBranch ∉ x86ArgsCopyLoop s d n := by
  induction n using Nat.strong_induction_on with
  | _ n ih =>
    intro s d
    by_cases h0 : n = 0
    · subst h0
      rw [x86ArgsCopyLoop]
      simp
    · rw [x86ArgsCopyLoop, dif_neg h0]
      split_ifs <;>
        simp [ih (n - 4) (by omega) (s + 16) (d + 16),
          ih (n - 1) (by omega) (s + 4) (d + 4)]

/-- The compact argument path emits no unconditional branch. -/
theorem genDalvikArgsNoRange_no_ub (env : Env)
    (u1 u2 : RegLocation → RegLocation) (next : Int → List Insn × Int)
    (info : CallInfo) (cs : Int) (pcr skipThis : Bool)
    (hnext : ∀ s : Int, Insn.opUncondBranch ∉ (next s).1) :
    Insn.opUncondBranch ∉ (GenDalvikArgsNoRange env u1 u2 next info cs pcr skipThis).1 := by
  have hload : ∀ (args : List RegLocation) (r c : Int),
      Insn.opUncondBranch ∉ (LoadArgRegsAux next u1 r args c).1 :=
    fun args r c => loadArgRegsAux_no_ub next u1 hnext args.length args r c le_rfl
  have hloop : ∀ (nu : Nat) (c : Int),
      Insn.opUncondBranch ∉
        (genArgsNoRangeLoop env u1 next info.args info.numArgWords nu c).1 :=
    fun nu c => genArgsNoRangeLoop_no_ub env u1 next info.args info.numArgWords
      hnext (info.numArgWords - nu) nu c le_rfl
  simp only [GenDalvikArgsNoRange, LoadArgRegs]
  split_ifs <;> simp [hnext, hload, hloop]

/-- The range argument path emits no unconditional branch. -/
theorem genDalvikArgsRange_no_ub (env : Env)
    (u1 u2 u3 : RegLocation → RegLocation) (next : Int → List Insn × Int)
    (isa : InstructionSet) (info : CallInfo) (cs : Int) (pcr skipThis : Bool)
    (hnext : ∀ s : Int, Insn.opUncondBranch ∉ (next s).1) :
    Insn.opUncondBranch ∉
      (GenDalvikArgsRange env u1 u2 u3 next isa info cs pcr skipThis).1 := by
  have hload : ∀ (args : List RegLocation) (r c : Int),
      Insn.opUncondBranch ∉ (LoadArgRegsAux next u1 r args c).1 :=
    fun args r c => loadArgRegsAux_no_ub next u1 hnext args.length args r c le_rfl
  have hflush : ∀ (na : Nat),
      Insn.opUncondBranch ∉
        genArgsRangeFlushLoop env u2 u3 info.args info.numArgWords na :=
    fun na => genArgsRangeFlushLoop_no_ub env u2 u3 info.args info.numArgWords
      (info.numArgWords - na) na le_rfl
  have hcopy := x86ArgsCopyLoop_no_ub (info.numArgWords - 3)
  have hnr := genDalvikArgsNoRange_no_ub env u1 u2 next info cs pcr skipThis hnext
  simp only [GenDalvikArgsRange, LoadArgRegs, CallRuntimeHelperRegRegImm,
    CallHelperSetup, CallHelper]
  split_ifs <;> simp [hnext, hload, hflush, hcopy, hnr]

/-- The call emitted by `GenInvokeNoInline` is a safepoint-marked call
instruction in every configuration. -/
theorem genInvokeCallInst_is_call (env : Env) (isa : InstructionSet)
    (mi : MethodLoweringInfo) :
    ∃ t, genInvokeCallInst env isa mi = Insn.callInsn t true := by
  simp only [genInvokeCallInst]
  split_ifs <;> exact ⟨_, rfl⟩

/-- `GenInvokeNoInline` emits no unconditional branch. -/
theorem genInvokeNoInline_no_ub (env : Env) (isa : InstructionSet)
    (u1 u2 u3 : RegLocation → RegLocation) (info : CallInfo)
    (mi : MethodLoweringInfo) :
    Insn.opUncondBranch ∉ GenInvokeNoInline env isa u1 u2 u3 info mi := by
  have hnext := nextInsn_no_ub env isa
  have hnr : ∀ (p : NextParams) (cs : Int) (pcr st : Bool),
      Insn.opUncondBranch ∉
        (GenDalvikArgsNoRange env u1 u2 (nextInsn env isa p) info cs pcr st).1 :=
    fun p cs pcr st =>
      genDalvikArgsNoRange_no_ub env u1 u2 (nextInsn env isa p) info cs pcr st
        (hnext p)
  have hr : ∀ (p : NextParams) (cs : Int) (pcr st : Bool),
      Insn.opUncondBranch ∉
        (GenDalvikArgsRange env u1 u2 u3 (nextInsn env isa p) isa info cs pcr st).1 :=
    fun p cs pcr st =>
      genDalvikArgsRange_no_ub env u1 u2 u3 (nextInsn env isa p) isa info cs pcr st
        (hnext p)
  have hdrain := drainCallSeq_no_ub env isa
  have hcall : Insn.opUncondBranch ≠ genInvokeCallInst env isa mi := by
    obtain ⟨t, ht⟩ := genInvokeCallInst_is_call env isa mi
    rw [ht]
    simp
  simp only [GenInvokeNoInline]
  split_ifs <;> simp [hnr, hr, hdrain, hcall]

/-- A two-argument compact call descriptor with no consumed result. -/
def info0 : CallInfo :=
  { numArgWords := 2, args := [default, default], isRange := false,
    result := default }

/-- Counterexample to claim C7: a launchpad compiled without a resume label
(`cont_ = nullptr`) emits no unconditional back-branch, and
`GenInlinedStringCompareTo` does create its launchpad without a resume
label. -/
theorem c7_counterexample :
    Insn.opUncondBranch ∉ IntrinsicLaunchpadCompile [] false ∧
    Insn.addLaunchpad false ∈
      (GenInlinedStringCompareTo env0 InstructionSet.thumb2 info0).2 := by
  refine ⟨by decide, by decide⟩

/-- Claim C7 (amended): every intrinsic launchpad, when materialized, first
resets the register pool and definition tracking, places the retry label,
then re-issues the operation as a full non-inlined invocation (whose dispatch
call is present and safepoint-marked), and ends with an unconditional jump
back to the resume label when one was supplied at creation; a launchpad
created without a resume label (as by `GenInlinedCharAt` and
`GenInlinedStringCompareTo`) emits no back-branch. -/
theorem c7_theorem (env : Env) (isa : InstructionSet)
    (u1 u2 u3 : RegLocation → RegLocation) (info : CallInfo)
    (mi : MethodLoweringInfo) (reissue : List Insn) (hasCont : Bool)
    (hnb : Insn.opUncondBranch ∉ reissue) :
    ((IntrinsicLaunchpadCompile reissue hasCont).take 3 =
      [Insn.resetRegPool, Insn.resetDefTracking, Insn.pseudoIntrinsicRetryLabel]) ∧
    (genInvokeCallInst env isa mi ∈
      IntrinsicLaunchpadCompile (GenInvokeNoInline env isa u1 u2 u3 info mi) hasCont) ∧
    (∃ t, genInvokeCallInst env isa mi = Insn.callInsn t true) ∧
    (hasCont = true →
      (IntrinsicLaunchpadCompile reissue hasCont).getLast? =
        some Insn.opUncondBranch) ∧
    (hasCont = false →
      Insn.opUncondBranch ∉ IntrinsicLaunchpadCompile reissue hasCont) ∧
    Insn.opUncondBranch ∉ GenInvokeNoInline env isa u1 u2 u3 info mi := by
  refine ⟨by simp [IntrinsicLaunchpadCompile], ?_,
    genInvokeCallInst_is_call env isa mi, ?_, ?_,
    genInvokeNoInline_no_ub env isa u1 u2 u3 info mi⟩
  · simp only [IntrinsicLaunchpadCompile, GenInvokeNoInline]
    split_ifs <;> simp
  · intro hc
    subst hc
    rw [IntrinsicLaunchpadCompile]
    rw [if_pos rfl]
    exact List.getLast?_concat _
  · intro hc
    subst hc
    simp [IntrinsicLaunchpadCompile, hnb]

/-- Witness for C7 (amended): the empty re-issue sequence contains no branch,
and a launchpad compiled without a resume label emits none either. -/
theorem c7_witness :
    Insn.opUncondBranch ∉ ([] : List Insn) ∧
    Insn.opUncondBranch ∉ IntrinsicLaunchpadCompile [] false := by
  refine ⟨by simp, ?_⟩
  exact (c7_theorem env0 InstructionSet.thumb2 id id id info0
    { tmIdx := 0, vtIdx := 0, directCode := 0, directMethod := 0,
      sharpType := InvokeType.static, fastPath := false } [] false
    (by simp)).2.2.2.2.1 rfl

/-- A lowering-info record for an unresolved static call. -/
def mi0 : MethodLoweringInfo :=
  { tmIdx := 0, vtIdx := 0, directCode := 0, directMethod := 0,
    sharpType := InvokeType.static, fastPath := false }

/-- Claim C8: an intrinsic that cannot specialize — `String.indexOf` on MIPS,
or with a constant search character above `0xFFFF` — declines with `false`
and emits no fast path, and the invocation driver then lowers the call as a
standard non-inlined invocation; declination is ordinary control flow, not an
error. -/
theorem c8_theorem (env : Env) (isa : InstructionSet) (info : CallInfo)
    (mi : MethodLoweringInfo) (zb : Bool) (cv : Nat)
    (u1 u2 u3 : RegLocation → RegLocation) :
    (isa = InstructionSet.mips →
      GenInlinedIndexOf env isa info zb cv = (false, [])) ∧
    ((info.args.getD 1 default).isConst = true → (cv &&& 0xFFFF0000) ≠ 0 →
      GenInlinedIndexOf env isa info zb cv = (false, [])) ∧
    ((GenInlinedIndexOf env isa info zb cv).1 = false →
      GenInvoke (GenInlinedIndexOf env isa info zb cv)
          (GenInvokeNoInline env isa u1 u2 u3 info mi) =
        GenInvokeNoInline env isa u1 u2 u3 info mi) := by
  refine ⟨fun h => by simp [GenInlinedIndexOf, h], fun h1 h2 => ?_, fun h => ?_⟩
  · simp only [GenInlinedIndexOf]
    by_cases hm : isa = InstructionSet.mips
    · rw [if_pos hm]
    · rw [if_neg hm, if_pos ⟨h1, h2⟩]
  · simp only [GenInlinedIndexOf] at h ⊢
    by_cases hm : isa = InstructionSet.mips
    · rw [if_pos hm] at h ⊢
      simp [GenInvoke]
    · rw [if_neg hm] at h ⊢
      by_cases hc : (info.args.getD 1 default).isConst = true ∧
          (cv &&& 0xFFFF0000) ≠ 0
      · rw [if_pos hc] at h ⊢
        simp [GenInvoke]
      · rw [if_neg hc] at h
        simp at h

/-- Witness for C8: on MIPS, `String.indexOf` declines and the driver falls
back to the full non-inlined lowering. -/
theorem c8_witness :
    (GenInlinedIndexOf env0 InstructionSet.mips info0 true 0).1 = false ∧
    GenInvoke (GenInlinedIndexOf env0 InstructionSet.mips info0 true 0)
        (GenInvokeNoInline env0 InstructionSet.mips id id id info0 mi0) =
      GenInvokeNoInline env0 InstructionSet.mips id id id info0 mi0 := by
  refine ⟨by decide, ?_⟩
  exact (c8_theorem env0 InstructionSet.mips info0 mi0 true 0 id id id).2.2
    (by decide)

/-- Claim C9: the runtime-helper calls emitted inside the inlined
`String.indexOf` and `String.compareTo` fast paths are never safepoint-marked,
whereas the full invocation path's dispatch call is always present and
safepoint-marked. -/
theorem c9_theorem (env : Env) (isa : InstructionSet) (info : CallInfo)
    (mi : MethodLoweringInfo) (zb : Bool) (cv : Nat)
    (u1 u2 u3 : RegLocation → RegLocation) :
    (∀ t sp, Insn.callInsn t sp ∈ (GenInlinedIndexOf env isa info zb cv).2 →
      sp = false) ∧
    (∀ t sp, Insn.callInsn t sp ∈ (GenInlinedStringCompareTo env isa info).2 →
      sp = false) ∧
    (genInvokeCallInst env isa mi ∈ GenInvokeNoInline env isa u1 u2 u3 info mi) ∧
    (∃ t, genInvokeCallInst env isa mi = Insn.callInsn t true) := by
  refine ⟨fun t sp hmem => ?_, fun t sp hmem => ?_, ?_,
    genInvokeCallInst_is_call env isa mi⟩
  · simp only [GenInlinedIndexOf] at hmem
    split_ifs at hmem <;> simp_all
  · simp only [GenInlinedStringCompareTo] at hmem
    split_ifs at hmem <;> simp_all
  · simp only [GenInvokeNoInline]
    split_ifs <;> simp

/-- Witness for C9: the helper call inside the inlined `String.indexOf` fast
path carries an unset safepoint flag. -/
theorem c9_witness :
    Insn.callInsn (CallTarget.helperReg ThreadHelper.indexOfHelper) false ∈
      (GenInlinedIndexOf env0 InstructionSet.thumb2 info0 true 0).2 ∧
    false = false := by
  refine ⟨by decide, ?_⟩
  exact (c9_theorem env0 InstructionSet.thumb2 info0 mi0 true 0 id id id).1
    (CallTarget.helperReg ThreadHelper.indexOfHelper) false (by decide)

/-- `LoadArgRegs` past the last argument register emits nothing. -/
theorem loadArgRegsAux_out_of_regs (next : Int → List Insn × Int)
    (updRaw : RegLocation → RegLocation) (args : List RegLocation)
    (nextReg cs : Int) (h : nextReg > regArg3) :
    LoadArgRegsAux next updRaw nextReg args cs = ([], cs) := by
  cases args <;> simp [LoadArgRegsAux, h]

/-- Every wide register-pair load emitted by `LoadArgRegs` targets a pair
starting at `kArg2` or earlier. -/
theorem loadArgRegsAux_wide_bounds (next : Int → List Insn × Int)
    (updRaw : RegLocation → RegLocation)
    (hnext : ∀ (s : Int) (rl : RegLocation) (lo hi : Int),
      Insn.loadValueDirectWideFixed rl lo hi ∉ (next s).1) :
    ∀ (fuel : Nat) (args : List RegLocation) (nextReg cs : Int)
      (rl : RegLocation) (lo hi : Int), args.length ≤ fuel →
      Insn.loadValueDirectWideFixed rl lo hi ∈
        (LoadArgRegsAux next updRaw nextReg args cs).1 →
      lo ≤ regArg2 ∧ hi = lo + 1 := by
  intro fuel
  induction fuel with
  | zero =>
    intro args r cs rl lo hi h hmem
    have hargs : args = [] := List.length_eq_zero.mp (Nat.le_zero.mp h)
    subst hargs
    simp [LoadArgRegsAux] at hmem
  | succ n ih =>
    intro args r cs rl lo hi h hmem
    cases args with
    | nil => simp [LoadArgRegsAux] at hmem
    | cons a rest =>
      have hr : rest.length ≤ n := by simpa using h
      have hrt : rest.tail.length ≤ n := by rw [List.length_tail]; omega
      simp only [LoadArgRegsAux] at hmem
      split_ifs at hmem with h1 h2
      · simp at hmem
      · rcases List.mem_cons.mp hmem with he | hm
        · obtain ⟨-, h2b, h2c⟩ := Insn.loadValueDirectWideFixed.inj he
          exact ⟨le_of_eq_of_le h2b h2.2, by rw [h2c, h2b]⟩
        · rcases List.mem_append.mp hm with hm | hm
          · exact absurd hm (hnext _ _ _ _)
          · exact ih rest.tail _ _ _ _ _ hrt hm
      all_goals
        rcases List.mem_cons.mp hmem with he | hm
        · simp at he
        · rcases List.mem_append.mp hm with hm | hm
          · exact absurd hm (hnext _ _ _ _)
          · exact ih rest _ _ _ _ _ hr hm

/-- Claim C10: in `LoadArgRegs`, a wide register-pair load is only ever
emitted with its first register at `kArg2` or earlier (so the pair never
extends past `kArg3`), and a wide argument whose first word is assigned to
`kArg3` is loaded as a single word into `kArg3` with its wide and
compile-time-constant flags cleared first, ending the register-filling
loop. -/
theorem c10_theorem (next : Int → List Insn × Int)
    (updRaw : RegLocation → RegLocation) (info : CallInfo) (cs cs2 : Int)
    (skipThis : Bool) (a : RegLocation) (rest : List RegLocation)
    (hnext : ∀ (s : Int) (rl : RegLocation) (lo hi : Int),
      Insn.loadValueDirectWideFixed rl lo hi ∉ (next s).1)
    (hw : (updRaw a).wide = true) :
    (∀ (rl : RegLocation) (lo hi : Int),
      Insn.loadValueDirectWideFixed rl lo hi ∈
        (LoadArgRegs next updRaw info cs skipThis).1 →
      lo ≤ regArg2 ∧ hi = lo + 1) ∧
    (LoadArgRegsAux next updRaw regArg3 (a :: rest) cs2 =
      (Insn.loadValueDirectFixed
          { updRaw a with wide := false, isConst := false } regArg3 ::
        (next cs2).1, (next cs2).2)) := by
  constructor
  · intro rl lo hi hmem
    simp only [LoadArgRegs] at hmem
    split_ifs at hmem
    · exact loadArgRegsAux_wide_bounds next updRaw hnext _ _ _ _ _ _ _ le_rfl hmem
    · exact loadArgRegsAux_wide_bounds next updRaw hnext _ _ _ _ _ _ _ le_rfl hmem
  · simp only [LoadArgRegsAux]
    rw [if_neg (by norm_num [regArg3]),
      if_neg (by simp [regArg3, regArg2]),
      loadArgRegsAux_out_of_regs next updRaw rest (regArg3 + 1) (next cs2).2
        (by norm_num [regArg3]), if_pos hw]
    simp

/-- Witness for C10: a wide argument whose first word lands at `kArg3` is
loaded as a single de-widened word and the loop stops. -/
theorem c10_witness :
    ((id rlWide0).wide = true) ∧
    LoadArgRegsAux (fun _ => ([], -1)) id regArg3 [rlWide0] 0 =
      ([Insn.loadValueDirectFixed
          { rlWide0 with wide := false, isConst := false } regArg3], -1) := by
  refine ⟨by decide, ?_⟩
  have h := (c10_theorem (fun _ => ([], -1)) id info0 0 0 false rlWide0 []
    (by intro s rl lo hi; simp) (by decide)).2
  simpa using h
